import Mathlib

/-!
# VoiceStack2 — verification of the job pipeline and speaker identity spec

Shallow embedding of the VoiceStack2 repository's behaviour relevant to the
frozen claims.  Pure UI logic (upload validation, offline-recording storage,
speaker rename editor, optimistic job display) is translated directly from
the TypeScript sources under `src/web/app`.  The worker pipeline (job state
machine, ASR fallback chain, resource lock, speaker identity resolution,
speaker merge/rename endpoints) is not present in the repository snapshot —
only its callers, documentation and migrations are — so those parts are
modelled from the specification, as flagged on each definition.
-/

namespace VoiceStack

/-! ## Upload page (src/web/app/page.tsx) -/

/-- `const MAX_FILE_SIZE = 100 * 1024 * 1024` (src/web/app/page.tsx line 10). -/
def MAX_FILE_SIZE : Nat := 100 * 1024 * 1024

/-- `SUPPORTED_TYPES` (src/web/app/page.tsx lines 13–23). -/
def SUPPORTED_TYPES : List String :=
  [ ("audio/mpeg"), ("audio/mp4"), ("audio/wav"), ("audio/ogg"), ("audio/webm"),
    ("video/mp4"), ("video/webm"), ("video/ogg"), ("video/quicktime") ]

/-- The fields of a browser `File` object that the upload page inspects. -/
structure BrowserFile where
  name : String
  size : Nat
  type : String
deriving Repr, DecidableEq

/-- `validateFile` (src/web/app/page.tsx lines 32–44): returns an error
message, or `none` when the file is acceptable. -/
def validateFile (f : BrowserFile) : Option String :=
  if f.size > MAX_FILE_SIZE then
    some ("File size must be less than 100MB")
  else if f.type ∉ SUPPORTED_TYPES then
    some ("Unsupported file type. Please upload audio or video files.")
  else
    none

/-- The component state of the upload page: `file`, `error`, `success`,
`jobId` (src/web/app/page.tsx lines 26–30; `uploading` is transient and
omitted). -/
structure UploadPageState where
  file : Option BrowserFile
  error : Option String
  success : Bool
  jobId : Option String
deriving Repr, DecidableEq

/-- The initial `useState` values of the upload page. -/
def initialUploadPage : UploadPageState :=
  { file := none, error := none, success := false, jobId := none }

/-- `handleFileChange` (src/web/app/page.tsx lines 46–63): an invalid
selection records the error and clears the selected file; a valid one stores
the file and resets error/success/jobId. -/
def handleFileChange (s : UploadPageState) (selected : Option BrowserFile) :
    UploadPageState :=
  match selected with
  | none => s
  | some f =>
    match validateFile f with
    | some msg => { s with error := some msg, file := none }
    | none => { file := some f, error := none, success := false, jobId := none }

/-- The file attached to the POST `/upload` request issued by `handleUpload`
(src/web/app/page.tsx lines 65–113): the guard `if (!file) return` means a
request is sent exactly when a file is selected. -/
def uploadRequest (s : UploadPageState) : Option BrowserFile :=
  s.file

/-- Events that mutate the upload page state. -/
inductive UploadEvent
  | select (f : Option BrowserFile)
  | uploadSucceeded (jobId : String)
  | uploadFailed (msg : String)

/-- One step of the upload page: file selection via `handleFileChange`, or
the success/failure continuations of `handleUpload`
(src/web/app/page.tsx lines 87–112). -/
def uploadStep (s : UploadPageState) : UploadEvent → UploadPageState
  | .select f => handleFileChange s f
  | .uploadSucceeded jid =>
    if s.file.isSome then
      { file := none, error := none, success := true, jobId := some jid }
    else s
  | .uploadFailed msg =>
    if s.file.isSome then
      { s with error := some msg, success := false }
    else s

/-- The upload page state after a sequence of events, from the initial state. -/
def uploadRun (events : List UploadEvent) : UploadPageState :=
  events.foldl uploadStep initialUploadPage

/-- Invariant: any selected file passed validation. -/
def uploadFileInv (s : UploadPageState) : Prop :=
  ∀ f, s.file = some f → validateFile f = none

/-! ## Offline recordings (src/web/app/hooks/useOfflineRecordings.ts) -/

/-- `const MAX_STORAGE_SIZE = 50 * 1024 * 1024` (line 12). -/
def MAX_STORAGE_SIZE : Nat := 50 * 1024 * 1024

/-- The serializable fields of a pending recording (lines 3–9 and 75–81);
`blobData` is the byte array `Array.from(new Uint8Array(...))`. -/
structure PendingRecording where
  id : String
  timestamp : Nat
  duration : Nat
  format : String
  blobData : List Nat
deriving Repr, DecidableEq

/-- JavaScript `arr.slice(-k)` for the non-negative number `k` produced by
`Math.floor(recordings.length / 2)`: `slice(-0)` is `slice(0)`, which
returns the whole array, and for `k > 0` it returns the last
`min k length` elements. -/
def jsSliceNeg (l : List α) (k : Nat) : List α :=
  if k = 0 then l else l.drop (l.length - k)

/-- Length in characters of `JSON.stringify` of an array, given the length
of each item's serialization: two brackets plus the items plus the
separating commas. -/
def jsonArrayLength (itemLen : PendingRecording → Nat) (l : List PendingRecording) : Nat :=
  2 + (l.map itemLen).sum + (l.length - 1)

/-- `savePendingRecordings` (src/web/app/hooks/useOfflineRecordings.ts
lines 73–96), abstracted over the length of the serialized JSON
(`JSON.stringify(data).length`) and supplied with fuel, since the source
recursion has no structural bound.  If the serialization exceeds
`MAX_STORAGE_SIZE` the code recurses on
`recordings.slice(-Math.floor(recordings.length / 2))`; otherwise it writes
the serialization to localStorage.  The result is the list that gets
written, or `none` when no write has happened within `fuel` recursive
calls. -/
def savePendingRecordings (serializedLength : List PendingRecording → Nat) :
    Nat → List PendingRecording → Option (List PendingRecording)
  | 0, _ => none
  | fuel + 1, recordings =>
    if serializedLength recordings > MAX_STORAGE_SIZE then
      savePendingRecordings serializedLength fuel
        (jsSliceNeg recordings (recordings.length / 2))
    else
      some recordings

/-! ## Speaker registry (data model of spec §3; tables in
src/unnamed/part_005 and src/migrations/002_add_speaker_visibility_fields.sql) -/

/-- A row of the `speakers` table: id, nullable display name, trusted flag,
raw diarizer label, nullable match confidence
(src/migrations/002_add_speaker_visibility_fields.sql), plus the
last-update instant used by the spec §4.5 tie-break. -/
structure Speaker where
  id : Nat
  name : Option String
  is_trusted : Bool
  original_label : Option String
  match_confidence : Option ℚ
  updatedAt : Nat
deriving Repr, DecidableEq

/-- A row of the `embeddings` table: owning speaker, voice-print vector,
creation instant (spec §3). -/
structure Embedding where
  id : Nat
  speakerId : Nat
  vector : List ℚ
  createdAt : Nat
deriving Repr, DecidableEq

/-- A row of the `segments` table: time range, text, nullable speaker
reference (spec §3). -/
structure Segment where
  id : Nat
  start : ℚ
  stop : ℚ
  text : String
  speakerId : Option Nat
deriving Repr, DecidableEq

/-- The shared speaker registry: `speakers`, `segments`, `embeddings`. -/
structure Registry where
  speakers : List Speaker
  segments : List Segment
  embeddings : List Embedding
deriving Repr, DecidableEq

/-! ## Speaker rename editor (src/web/app/jobs/[id]/page.tsx lines 851–919,
src/unnamed/part_004 lines 345–358) -/

/-- The characters removed by JavaScript `String.prototype.trim`
(ECMAScript WhiteSpace and LineTerminator). -/
def jsWhitespace : List Char :=
  [' ', '\t', '\n', '\r', '\x0b', '\x0c',
   '\u00A0', '\u1680', '\u2000', '\u2001', '\u2002', '\u2003', '\u2004',
   '\u2005', '\u2006', '\u2007', '\u2008', '\u2009', '\u200A',
   '\u2028', '\u2029', '\u202F', '\u205F', '\u3000', '\uFEFF']

def isJsWhitespace (c : Char) : Bool := jsWhitespace.contains c

/-- JavaScript `name.trim()`. -/
def jsTrim (s : String) : String :=
  String.mk (((s.data.dropWhile isJsWhitespace).reverse.dropWhile isJsWhitespace).reverse)

/-- `SpeakerEditor.handleSave` (src/web/app/jobs/[id]/page.tsx lines
856–879): `if (!name.trim()) return` guards the PUT request, whose body is
`{ name: name.trim() }`.  Returns the name sent in the request, `none` when
no request is issued. -/
def handleSave (name : String) : Option String :=
  if jsTrim name = "" then none else some (jsTrim name)

/-- Modelled from the spec: the server side of `PUT /speakers/{id}` consumed
by `SpeakerEditor.handleSave` is not in the repository snapshot; per spec
§4.5 it updates the display name of the addressed Speaker and nothing else.
Applied only when `handleSave` issues a request. -/
def applySaveRequest (r : Registry) (sid : Nat) (nameInput : String) : Registry :=
  match handleSave nameInput with
  | none => r
  | some n =>
    { r with speakers := r.speakers.map fun s =>
        if s.id = sid then { s with name := some n } else s }

/-- Modelled from the spec: the rename operation of the Speaker Identity
Resolution Engine (spec §4.5) is not in the repository snapshot (only its
caller, the web editor, is).  It updates only the display name and trusted
flag of the addressed Speaker. -/
def renameSpeaker (r : Registry) (sid : Nat) (newName : Option String)
    (trusted : Bool) : Registry :=
  { r with speakers := r.speakers.map fun s =>
      if s.id = sid then { s with name := newName, is_trusted := trusted } else s }

/-! ## Speaker merge (spec §4.5; caller: SpeakerMergeButton.handleMerge,
src/web/app/jobs/[id]/page.tsx lines 770–800) -/

def segmentsOf (r : Registry) (sid : Nat) : List Segment :=
  r.segments.filter fun g => g.speakerId = some sid

def embeddingsOf (r : Registry) (sid : Nat) : List Embedding :=
  r.embeddings.filter fun e => e.speakerId = sid

def speakerExists (r : Registry) (sid : Nat) : Bool :=
  r.speakers.any fun s => s.id = sid

/-- Modelled from the spec: the `POST /speakers/merge` implementation
(worker/API side, spec §4.5; "reassign segments.speaker_id, append
embeddings, delete source" in src/unnamed/part_005) is not in the
repository snapshot — the web button only posts source and target ids.
Merge is a single transaction: it reassigns every Segment and Embedding of
the source to the target and deletes the source Speaker, or fails cleanly
(`none`) leaving the registry untouched.  The UI never offers the speaker
itself as a target, and a merge of a missing source or target fails. -/
def mergeSpeakers (r : Registry) (src tgt : Nat) : Option Registry :=
  if src = tgt then none
  else if speakerExists r src && speakerExists r tgt then
    some
      { speakers := r.speakers.filter fun s => s.id ≠ src,
        segments := r.segments.map fun g =>
          if g.speakerId = some src then { g with speakerId := some tgt } else g,
        embeddings := r.embeddings.map fun e =>
          if e.speakerId = src then { e with speakerId := tgt } else e }
  else none

/-- The registry after a merge request: a failed merge leaves the registry
unchanged. -/
def applyMerge (r : Registry) (src tgt : Nat) : Registry :=
  (mergeSpeakers r src tgt).getD r

/-! ## Speaker identity resolution (spec §4.5; worker/speaker.py in
src/unnamed/part_005, not in the snapshot) -/

/-- The most recent embedding owned by a speaker: maximal `createdAt`
(spec §3: "the most recent is used for matching"). -/
def latestEmbeddingOf (r : Registry) (sid : Nat) : Option Embedding :=
  (embeddingsOf r sid).foldl
    (fun acc e =>
      match acc with
      | none => some e
      | some b => if b.createdAt ≤ e.createdAt then some e else some b)
    none

/-- Modelled from the spec: the similarity scores computed during
resolution (spec §4.5) — each existing Speaker that owns an embedding,
paired with the similarity between the new vector and that Speaker's most
recent embedding.  The cosine-similarity metric itself is the parameter
`sim`. -/
def matchCandidates (sim : List ℚ → List ℚ → ℚ) (r : Registry) (v : List ℚ) :
    List (Speaker × ℚ) :=
  r.speakers.filterMap fun s =>
    match latestEmbeddingOf r s.id with
    | some e => some (s, sim v e.vector)
    | none => none

/-- Modelled from the spec: the §4.5 tie-break between one candidate and
the best of the rest — highest similarity first, then the
most-recently-updated Speaker. -/
def pickBestPair (c : Speaker × ℚ) : Option (Speaker × ℚ) → Speaker × ℚ
  | none => c
  | some b =>
    if b.2 < c.2 then c
    else if c.2 < b.2 then b
    else if b.1.updatedAt ≤ c.1.updatedAt then c
    else b

/-- Modelled from the spec: the best candidate under the §4.5 tie-break. -/
def pickBest : List (Speaker × ℚ) → Option (Speaker × ℚ)
  | [] => none
  | c :: cs => some (pickBestPair c (pickBest cs))

/-- The outcome of resolving one diarized cluster's embedding. -/
structure ResolutionResult where
  registry : Registry
  assignedSpeakerId : Nat
  createdNew : Bool
deriving Repr, DecidableEq

/-- Modelled from the spec: "create a new Speaker with no display name,
match confidence null, and store the new embedding under it" (spec §4.5). -/
def createNewSpeaker (r : Registry) (v : List ℚ) (newEmbId newSpeakerId now : Nat) :
    ResolutionResult :=
  { registry :=
      { r with
        speakers := r.speakers ++
          [{ id := newSpeakerId, name := none, is_trusted := false,
             original_label := none, match_confidence := none, updatedAt := now }],
        embeddings := r.embeddings ++
          [{ id := newEmbId, speakerId := newSpeakerId, vector := v, createdAt := now }] },
    assignedSpeakerId := newSpeakerId,
    createdNew := true }

/-- Modelled from the spec: the Speaker Identity Resolution Engine
(spec §4.5), absent from the repository snapshot (worker/speaker.py).
Given the similarity metric `sim` (cosine similarity in the source design),
the configured threshold, and a newly extracted embedding vector: if the
best candidate's similarity meets or exceeds the threshold, assign the
cluster to that Speaker, record the similarity as its match confidence and
store the new embedding under it; otherwise create a new Speaker with no
name and null confidence. -/
def resolveEmbedding (sim : List ℚ → List ℚ → ℚ) (threshold : ℚ) (r : Registry)
    (v : List ℚ) (newEmbId newSpeakerId now : Nat) : ResolutionResult :=
  match pickBest (matchCandidates sim r v) with
  | some (s, score) =>
    if threshold ≤ score then
      { registry :=
          { r with
            speakers := r.speakers.map fun t =>
              if t.id = s.id then
                { t with match_confidence := some score, updatedAt := now }
              else t,
            embeddings := r.embeddings ++
              [{ id := newEmbId, speakerId := s.id, vector := v, createdAt := now }] },
        assignedSpeakerId := s.id,
        createdNew := false }
    else createNewSpeaker r v newEmbId newSpeakerId now
  | none => createNewSpeaker r v newEmbId newSpeakerId now

/-! ## Job status (spec §4.1; consumers: getStatusIcon in
src/web/app/jobs/page.tsx lines 117–130, SimpleRecordingInterface lines
183–194) -/

/-- The job status enum: `QUEUED | RUNNING | FAILED | SUCCEEDED | CANCELLED`
(src/unnamed/part_005 line 139 and spec §4.1). -/
inductive JobStatus
  | QUEUED
  | RUNNING
  | SUCCEEDED
  | FAILED
  | CANCELLED
deriving Repr, DecidableEq, Fintype

/-- Modelled from the spec: the orchestrator's transition relation
(spec §4.1), absent from the repository snapshot — `QUEUED → RUNNING →
SUCCEEDED | FAILED`, `CANCELLED` from `QUEUED` or `RUNNING`. -/
def jobTransition : JobStatus → JobStatus → Bool
  | .QUEUED, .RUNNING => true
  | .QUEUED, .CANCELLED => true
  | .RUNNING, .SUCCEEDED => true
  | .RUNNING, .FAILED => true
  | .RUNNING, .CANCELLED => true
  | _, _ => false

def isTerminalStatus : JobStatus → Bool
  | .SUCCEEDED => true
  | .FAILED => true
  | .CANCELLED => true
  | _ => false

/-- A job entry of the recording interface's recent-jobs list
(src/web/app/components/SimpleRecordingInterface.tsx lines 145–150). -/
structure RecentJob where
  id : String
  status : String
  progress : Nat
  created_at : String
deriving Repr, DecidableEq

/-- The job record `SimpleRecordingInterface.handleUpload` constructs
immediately after a successful upload (lines 145–150): hard-coded status
`'RUNNING'`, progress 0. -/
def optimisticUploadJob (jobId createdAt : String) : RecentJob :=
  { id := jobId, status := ("RUNNING"), progress := 0, created_at := createdAt }

/-- `setRecentJobs(prev => [newJob, ...prev.slice(0, 2)])` (line 151). -/
def insertRecentJob (prev : List RecentJob) (newJob : RecentJob) : List RecentJob :=
  newJob :: prev.take 2

/-! ## ASR fallback chain (spec §4.4; flow documented in
src/current_problems.md lines 26–33, implementation not in the snapshot) -/

/-- Modelled from the spec: a transcription adapter of the ASR Fallback
Chain (spec §4.4); `run` returns the transcription text, or `none` when the
adapter raises or times out. -/
structure AsrAdapter where
  name : String
  run : String → Option String

/-- Modelled from the spec: the successful output of one adapter on the
given audio — an adapter "fails" if it raises an error, times out, or
returns empty output for non-empty audio (spec §4.4). -/
def adapterOutput (a : AsrAdapter) (audio : String) : Option String :=
  match a.run audio with
  | none => none
  | some t => if t = "" ∧ audio ≠ "" then none else some t

/-- One link of the chain: a success ends the chain with that adapter's
name and output; a failure moves on to the tail's result, recording that
this adapter was tried. -/
def runAsrChainStep (a : AsrAdapter) (out : Option String)
    (tail : List String × Except String (String × String)) :
    List String × Except String (String × String) :=
  match out with
  | some t => ([a.name], Except.ok (a.name, t))
  | none => (a.name :: tail.1, tail.2)

/-- Modelled from the spec: the ASR Fallback Chain driver (spec §4.4),
absent from the snapshot (simple_pipeline.py / asr_*.py per
src/current_problems.md).  Adapters are tried strictly in order; the first
success wins; a failed adapter is skipped and never retried.  Returns the
list of adapter names tried together with either the winning adapter's name
and transcription, or the chain-exhausted error. -/
def runAsrChain : List AsrAdapter → String → List String × Except String (String × String)
  | [], _ => ([], Except.error ("ASR failed: all transcription adapters exhausted"))
  | a :: rest, audio =>
    runAsrChainStep a (adapterOutput a audio) (runAsrChain rest audio)

/-- The job-level outcome of the transcription stage: the pipeline
continues on a success, and the job fails with the ASR error otherwise
(spec §4.2 failure policy). -/
def asrStageResult (adapters : List AsrAdapter) (audio : String) :
    JobStatus × Option String :=
  match (runAsrChain adapters audio).2 with
  | Except.ok _ => (JobStatus.RUNNING, none)
  | Except.error e => (JobStatus.FAILED, some e)

/-! ## Resource lock (spec §4.3/§5; GPU mutex note in src/unnamed/part_005
line 237, implementation not in the snapshot) -/

/-- One job of the orchestrator, reduced to what the lock discipline needs:
its identifier, its current stage (1–11 in the spec §4.2 numbering) and
whether it has failed. -/
structure PipelineJob where
  id : Nat
  stage : Nat
  failed : Bool
deriving Repr, DecidableEq

/-- Stages 3–6 contend for the shared accelerator and require the Resource
Lock (spec §4.2). -/
def needsResourceLock (stage : Nat) : Bool :=
  decide (3 ≤ stage) && decide (stage ≤ 6)

/-- The orchestrator system state: the Resource Lock holder and the jobs. -/
structure OrchestratorState where
  lockHolder : Option Nat
  jobs : List PipelineJob
deriving Repr, DecidableEq

/-- Update the job with the given id. -/
def updateJob (jobs : List PipelineJob) (i : Nat) (f : PipelineJob → PipelineJob) :
    List PipelineJob :=
  jobs.map fun j => if j.id = i then f j else j

/-- Modelled from the spec: the interleaved steps of concurrent jobs around
the Resource Lock (spec §4.2–§4.3, §5), whose implementation (a leased
Redis/file lock per src/unnamed/part_005) is not in the snapshot.  The lock
is acquired immediately before stage 3 and released immediately after stage
6 completes or fails; failing to acquire it within the bounded wait timeout
marks the stage failed instead of crashing. -/
inductive OrchStep : OrchestratorState → OrchestratorState → Prop
  | advanceLight (st : OrchestratorState) (j : PipelineJob) :
      j ∈ st.jobs → j.failed = false →
      needsResourceLock j.stage = false → needsResourceLock (j.stage + 1) = false →
      j.stage + 1 ≤ 11 →
      OrchStep st
        { st with jobs := updateJob st.jobs j.id fun x => { x with stage := x.stage + 1 } }
  | acquireLock (st : OrchestratorState) (j : PipelineJob) :
      j ∈ st.jobs → j.failed = false → j.stage = 2 → st.lockHolder = none →
      OrchStep st
        { lockHolder := some j.id,
          jobs := updateJob st.jobs j.id fun x => { x with stage := 3 } }
  | acquireTimeout (st : OrchestratorState) (j : PipelineJob) :
      j ∈ st.jobs → j.failed = false → j.stage = 2 →
      OrchStep st
        { st with jobs := updateJob st.jobs j.id fun x => { x with failed := true } }
  | advanceLocked (st : OrchestratorState) (j : PipelineJob) :
      j ∈ st.jobs → j.failed = false → st.lockHolder = some j.id →
      3 ≤ j.stage → j.stage < 6 →
      OrchStep st
        { st with jobs := updateJob st.jobs j.id fun x => { x with stage := x.stage + 1 } }
  | releaseLock (st : OrchestratorState) (j : PipelineJob) :
      j ∈ st.jobs → j.failed = false → st.lockHolder = some j.id → j.stage = 6 →
      OrchStep st
        { lockHolder := none,
          jobs := updateJob st.jobs j.id fun x => { x with stage := 7 } }
  | failLocked (st : OrchestratorState) (j : PipelineJob) :
      j ∈ st.jobs → st.lockHolder = some j.id → needsResourceLock j.stage = true →
      OrchStep st
        { lockHolder := none,
          jobs := updateJob st.jobs j.id fun x => { x with failed := true } }

/-- The lock-discipline invariant: job ids are distinct, and any unfailed
job inside the accelerator-bound stages 3–6 is the lock holder. -/
def OrchInv (st : OrchestratorState) : Prop :=
  (st.jobs.map PipelineJob.id).Nodup ∧
  ∀ j ∈ st.jobs, needsResourceLock j.stage = true → j.failed = false →
    st.lockHolder = some j.id

/-! ## Concrete fixtures used by the witnesses -/

/-- A sample registered speaker with a stored embedding. -/
def spkA : Speaker :=
  { id := 1, name := some ("Alice"), is_trusted := false,
    original_label := some ("SPEAKER_00"), match_confidence := some 1,
    updatedAt := 10 }

/-- A second sample speaker. -/
def spkB : Speaker :=
  { id := 2, name := none, is_trusted := false, original_label := none,
    match_confidence := none, updatedAt := 20 }

/-- A small concrete registry: two speakers, a segment and an embedding
each. -/
def sampleRegistry : Registry :=
  { speakers := [spkA, spkB],
    segments :=
      [ { id := 1, start := 0, stop := 5, text := ("hi"), speakerId := some 1 },
        { id := 2, start := 5, stop := 9, text := ("yo"), speakerId := some 2 } ],
    embeddings :=
      [ { id := 1, speakerId := 1, vector := [1, 0], createdAt := 5 },
        { id := 2, speakerId := 2, vector := [0, 1], createdAt := 6 } ] }

/-- `sampleRegistry` after merging speaker 1 into speaker 2. -/
def sampleMerged : Registry :=
  { speakers := [spkB],
    segments :=
      [ { id := 1, start := 0, stop := 5, text := ("hi"), speakerId := some 2 },
        { id := 2, start := 5, stop := 9, text := ("yo"), speakerId := some 2 } ],
    embeddings :=
      [ { id := 1, speakerId := 2, vector := [1, 0], createdAt := 5 },
        { id := 2, speakerId := 2, vector := [0, 1], createdAt := 6 } ] }

/-- An exact-match similarity metric (1 when the vectors coincide, 0
otherwise) used to instantiate the abstract `sim` parameter in witnesses. -/
def indicatorSim (v w : List ℚ) : ℚ := if v = w then 1 else 0

/-- An adapter that always fails (raises), like the Whisper CLI under the
broken ctranslate2 environment of src/current_problems.md. -/
def whisperFails : AsrAdapter := { name := ("whisper-cli"), run := fun _ => none }

/-- An adapter that always succeeds. -/
def transformersOk : AsrAdapter :=
  { name := ("transformers-asr"), run := fun _ => some ("transcript") }

/-- An initial orchestrator state: lock free, two queued-side jobs. -/
def initOrch : OrchestratorState :=
  { lockHolder := none,
    jobs := [ { id := 1, stage := 2, failed := false },
              { id := 2, stage := 1, failed := false } ] }

/-! ## Theorems -/

lemma uploadStep_inv {s : UploadPageState} (h : uploadFileInv s) (e : UploadEvent) :
    uploadFileInv (uploadStep s e) := by
  cases e with
  | select sel =>
    cases sel with
    | none => exact h
    | some f =>
      intro g hg
      simp only [uploadStep, handleFileChange] at hg
      cases hv : validateFile f with
      | none =>
        rw [hv] at hg
        simp only [UploadPageState.mk.injEq] at hg
        cases hg
        exact hv
      | some msg =>
        rw [hv] at hg
        simp at hg
  | uploadSucceeded jid =>
    intro g hg
    simp only [uploadStep] at hg
    by_cases hf : s.file.isSome
    · simp [hf] at hg
    · simp [hf] at hg
      exact h g hg
  | uploadFailed msg =>
    intro g hg
    simp only [uploadStep] at hg
    by_cases hf : s.file.isSome
    · simp [hf] at hg
      exact h g hg
    · simp [hf] at hg
      exact h g hg

lemma uploadFoldl_inv (events : List UploadEvent) :
    ∀ s : UploadPageState, uploadFileInv s → uploadFileInv (events.foldl uploadStep s) := by
  induction events with
  | nil => intro s hs; exact hs
  | cons e rest ih => intro s hs; exact ih _ (uploadStep_inv hs e)

lemma uploadRun_inv (events : List UploadEvent) : uploadFileInv (uploadRun events) := by
  have base : uploadFileInv initialUploadPage := by
    intro f hf
    simp [initialUploadPage] at hf
  exact uploadFoldl_inv events initialUploadPage base

lemma validateFile_none_iff (f : BrowserFile) :
    validateFile f = none ↔ (f.size ≤ MAX_FILE_SIZE ∧ f.type ∈ SUPPORTED_TYPES) := by
  constructor
  · intro h
    by_cases h1 : f.size > MAX_FILE_SIZE
    · simp [validateFile, h1] at h
    · by_cases h2 : f.type ∈ SUPPORTED_TYPES
      · exact ⟨by omega, h2⟩
      · simp [validateFile, h1, h2] at h
  · intro h
    have h1 : ¬ f.size > MAX_FILE_SIZE := by omega
    simp [validateFile, h1, h.2]

/-- C8: a file selected on the upload page whose size exceeds 100 MB or
whose MIME type is not in the supported list is rejected with an error
message and the selected-file state is cleared, so no upload request is
ever sent for it; a request is only ever sent for a file that passed both
checks. -/
theorem upload_file_validation :
    (∀ f : BrowserFile, validateFile f ≠ none ↔
        (f.size > MAX_FILE_SIZE ∨ f.type ∉ SUPPORTED_TYPES)) ∧
    (∀ (s : UploadPageState) (f : BrowserFile), validateFile f ≠ none →
        (handleFileChange s (some f)).file = none ∧
        (handleFileChange s (some f)).error = validateFile f ∧
        uploadRequest (handleFileChange s (some f)) = none) ∧
    (∀ (events : List UploadEvent) (f : BrowserFile),
        uploadRequest (uploadRun events) = some f →
        f.size ≤ MAX_FILE_SIZE ∧ f.type ∈ SUPPORTED_TYPES) := by
  refine ⟨?_, ?_, ?_⟩
  · intro f
    rw [Ne, validateFile_none_iff]
    constructor
    · intro h
      by_contra hc
      push_neg at hc
      exact h ⟨by omega, hc.2⟩
    · intro h hc
      rcases h with h | h
      · omega
      · exact h hc.2
  · intro s f hf
    cases hv : validateFile f with
    | none => exact absurd hv hf
    | some msg =>
      refine ⟨?_, ?_, ?_⟩ <;>
        simp [handleFileChange, uploadRequest, hv]
  · intro events f hf
    have hinv := uploadRun_inv events
    have := hinv f hf
    exact (validateFile_none_iff f).mp this

/-- Witness for C8: an oversized `audio/mpeg` file (100 MB + 1 byte) is
rejected and cleared by `handleFileChange`. -/
theorem upload_file_validation_witness :
    (handleFileChange initialUploadPage
        (some { name := ("big.mp3"), size := 104857601, type := ("audio/mpeg") })).file = none ∧
    uploadRequest (handleFileChange initialUploadPage
        (some { name := ("big.mp3"), size := 104857601, type := ("audio/mpeg") })) = none := by
  have h := upload_file_validation
  have hr := h.2.1 initialUploadPage
      { name := ("big.mp3"), size := 104857601, type := ("audio/mpeg") } (by decide)
  exact ⟨hr.1, hr.2.2⟩

lemma jsSliceNeg_suffix (l : List α) (k : Nat) : (jsSliceNeg l k).IsSuffix l := by
  unfold jsSliceNeg
  split_ifs
  · exact List.suffix_refl l
  · exact List.drop_suffix _ _

/-- C9: when `savePendingRecordings` does write, the written serialization
is within the 50 MB limit and the written list is a suffix (the newest
entries) of the input; but the recursion does NOT terminate for every
input — on a single-element list whose one recording alone exceeds the
limit, `slice(-Math.floor(1/2)) = slice(-0)` returns the whole list
unchanged and the function recurses forever (`none` for every fuel). -/
theorem savePendingRecordings_quota :
    (∀ (len : List PendingRecording → Nat) (fuel : Nat)
        (recs out : List PendingRecording),
        savePendingRecordings len fuel recs = some out →
        len out ≤ MAX_STORAGE_SIZE ∧ out.IsSuffix recs) ∧
    (∀ (len : List PendingRecording → Nat) (r : PendingRecording),
        len [r] > MAX_STORAGE_SIZE →
        ∀ fuel, savePendingRecordings len fuel [r] = none) := by
  constructor
  · intro len fuel
    induction fuel with
    | zero =>
      intro recs out h
      simp [savePendingRecordings] at h
    | succ n ih =>
      intro recs out h
      by_cases hgt : len recs > MAX_STORAGE_SIZE
      · rw [savePendingRecordings, if_pos hgt] at h
        obtain ⟨h1, h2⟩ := ih _ _ h
        exact ⟨h1, h2.trans (jsSliceNeg_suffix _ _)⟩
      · rw [savePendingRecordings, if_neg hgt] at h
        injection h with h
        subst h
        exact ⟨by omega, List.suffix_refl _⟩
  · intro len r hgt fuel
    induction fuel with
    | zero => rfl
    | succ n ih =>
      rw [savePendingRecordings, if_pos hgt]
      have h0 : jsSliceNeg [r] (([r] : List PendingRecording).length / 2) = [r] := by
        simp [jsSliceNeg]
      rw [h0]
      exact ih

/-- Witness for C9: a single recording whose serialized item is 52 428 799
characters (so the array serialization is 52 428 801 > 50 * 1024 * 1024
characters) is never written and never dropped: the recursion loops. -/
theorem savePendingRecordings_quota_witness :
    savePendingRecordings (jsonArrayLength PendingRecording.duration) 100
      [{ id := ("rec-1"), timestamp := 0, duration := 52428799,
         format := ("audio/webm"), blobData := [] }] = none := by
  have h := savePendingRecordings_quota
  exact h.2 (jsonArrayLength PendingRecording.duration)
    { id := ("rec-1"), timestamp := 0, duration := 52428799,
      format := ("audio/webm"), blobData := [] } (by decide) 100

lemma dropWhile_all_iff (p : α → Bool) (l : List α) :
    (∀ x ∈ l.dropWhile p, p x = true) ↔ (∀ x ∈ l, p x = true) := by
  constructor
  · intro h x hx
    have hx2 : x ∈ l.takeWhile p ++ l.dropWhile p := by
      rw [List.takeWhile_append_dropWhile]
      exact hx
    rcases List.mem_append.mp hx2 with h1 | h2
    · exact List.mem_takeWhile_imp h1
    · exact h x h2
  · intro h x hx
    exact h x ((List.dropWhile_sublist p).subset hx)

lemma jsTrim_eq_empty_iff (s : String) :
    jsTrim s = ("") ↔ s.data.all isJsWhitespace = true := by
  have hempty : (("") : String).data = [] := rfl
  rw [String.ext_iff]
  show (((s.data.dropWhile isJsWhitespace).reverse.dropWhile isJsWhitespace).reverse
      = (("") : String).data) ↔ _
  rw [hempty, List.reverse_eq_nil_iff, List.dropWhile_eq_nil_iff, List.all_eq_true]
  constructor
  · intro h x hx
    exact (dropWhile_all_iff isJsWhitespace s.data).mp
      (fun y hy => h y (List.mem_reverse.mpr hy)) x hx
  · intro h x hx
    exact h x ((List.dropWhile_sublist isJsWhitespace).subset (List.mem_reverse.mp hx))

/-- C10: submitting the speaker rename editor with an empty or
whitespace-only name performs no action — `handleSave` issues no request
and the registry is unchanged — and every name that is saved through the
editor is the trimmed, non-empty input. -/
theorem speaker_rename_empty_guard :
    (∀ name : String, jsTrim name = ("") ↔ name.data.all isJsWhitespace = true) ∧
    (∀ name : String, jsTrim name = ("") → handleSave name = none) ∧
    (∀ (r : Registry) (sid : Nat) (name : String),
        handleSave name = none → applySaveRequest r sid name = r) ∧
    (∀ (name sent : String), handleSave name = some sent →
        sent = jsTrim name ∧ sent ≠ ("")) := by
  refine ⟨jsTrim_eq_empty_iff, ?_, ?_, ?_⟩
  · intro name h
    simp [handleSave, h]
  · intro r sid name h
    simp [applySaveRequest, h]
  · intro name sent h
    unfold handleSave at h
    by_cases ht : jsTrim name = ("")
    · rw [if_pos ht] at h
      exact Option.noConfusion h
    · rw [if_neg ht] at h
      injection h with h
      subst h
      exact ⟨rfl, ht⟩

/-- Witness for C10: a two-space name issues no request and leaves a
one-speaker registry untouched. -/
theorem speaker_rename_empty_guard_witness :
    handleSave ("  ") = none ∧
    applySaveRequest
      { speakers := [{ id := 7, name := some ("Bob"), is_trusted := false,
                       original_label := none, match_confidence := none, updatedAt := 0 }],
        segments := [], embeddings := [] } 7 ("  ") =
      { speakers := [{ id := 7, name := some ("Bob"), is_trusted := false,
                       original_label := none, match_confidence := none, updatedAt := 0 }],
        segments := [], embeddings := [] } := by
  have h := speaker_rename_empty_guard
  have h1 : handleSave ("  ") = none := h.2.1 ("  ") (by decide)
  exact ⟨h1, h.2.2.1 _ 7 ("  ") h1⟩

/-- C7: renaming a Speaker updates only the display name and trusted flag
of that Speaker — the segments and embeddings lists are untouched, every
other Speaker is unchanged, and the renamed Speaker keeps its id, original
label, match confidence and update instant. -/
theorem rename_touches_only_name_and_trust (r : Registry) (sid : Nat)
    (newName : Option String) (trusted : Bool) :
    (renameSpeaker r sid newName trusted).segments = r.segments ∧
    (renameSpeaker r sid newName trusted).embeddings = r.embeddings ∧
    (∀ s ∈ r.speakers, s.id ≠ sid →
        s ∈ (renameSpeaker r sid newName trusted).speakers) ∧
    (∀ s2 ∈ (renameSpeaker r sid newName trusted).speakers, ∃ s ∈ r.speakers,
        s2.id = s.id ∧ s2.original_label = s.original_label ∧
        s2.match_confidence = s.match_confidence ∧ s2.updatedAt = s.updatedAt ∧
        (s.id ≠ sid → s2 = s)) := by
  refine ⟨rfl, rfl, ?_, ?_⟩
  · intro s hs hne
    unfold renameSpeaker
    simp only [List.mem_map]
    exact ⟨s, hs, by rw [if_neg hne]⟩
  · intro s2 hs2
    unfold renameSpeaker at hs2
    simp only [List.mem_map] at hs2
    obtain ⟨s, hs, heq⟩ := hs2
    by_cases hid : s.id = sid
    · rw [if_pos hid] at heq
      subst heq
      exact ⟨s, hs, rfl, rfl, rfl, rfl, fun hne => absurd hid hne⟩
    · rw [if_neg hid] at heq
      subst heq
      exact ⟨s, hs, rfl, rfl, rfl, rfl, fun _ => rfl⟩

/-- Witness for C7: renaming speaker 1 in the sample registry leaves
speaker 2 present and the segments untouched. -/
theorem rename_touches_only_name_and_trust_witness :
    spkB ∈ (renameSpeaker sampleRegistry 1 (some ("Alice Smith")) true).speakers ∧
    (renameSpeaker sampleRegistry 1 (some ("Alice Smith")) true).segments =
      sampleRegistry.segments := by
  have h := rename_touches_only_name_and_trust sampleRegistry 1 (some ("Alice Smith")) true
  exact ⟨h.2.2.1 spkB (by decide) (by decide), h.1⟩

/-- C2: a successful merge reassigns every Segment and Embedding of the
source to the target and deletes the source Speaker; segment and embedding
ids are preserved exactly (no row duplicated or lost); rows not owned by
the source are untouched; and a failed merge leaves the registry unchanged
— the only observable states are the input registry and the fully merged
one, never a partially applied mixture. -/
theorem merge_reassigns_all (r : Registry) (src tgt : Nat) :
    (∀ r2, mergeSpeakers r src tgt = some r2 →
      (∀ g ∈ r2.segments, g.speakerId ≠ some src) ∧
      (∀ e ∈ r2.embeddings, e.speakerId ≠ src) ∧
      (∀ s ∈ r2.speakers, s.id ≠ src) ∧
      r2.segments.map Segment.id = r.segments.map Segment.id ∧
      r2.embeddings.map Embedding.id = r.embeddings.map Embedding.id ∧
      (∀ g ∈ r.segments, g.speakerId = some src →
        { g with speakerId := some tgt } ∈ r2.segments) ∧
      (∀ g ∈ r.segments, g.speakerId ≠ some src → g ∈ r2.segments) ∧
      (∀ e ∈ r.embeddings, e.speakerId = src →
        { e with speakerId := tgt } ∈ r2.embeddings) ∧
      (∀ e ∈ r.embeddings, e.speakerId ≠ src → e ∈ r2.embeddings) ∧
      (∀ s ∈ r.speakers, s.id ≠ src → s ∈ r2.speakers)) ∧
    (mergeSpeakers r src tgt = none → applyMerge r src tgt = r) := by
  constructor
  · intro r2 h
    by_cases h1 : src = tgt
    · rw [mergeSpeakers, if_pos h1] at h
      exact Option.noConfusion h
    by_cases h2 : (speakerExists r src && speakerExists r tgt) = true
    swap
    · rw [mergeSpeakers, if_neg h1, if_neg h2] at h
      exact Option.noConfusion h
    · rw [mergeSpeakers, if_neg h1, if_pos h2] at h
      injection h with h
      subst h
      refine ⟨?_, ?_, ?_, ?_, ?_, ?_, ?_, ?_, ?_, ?_⟩
      · intro g hg
        simp only [List.mem_map] at hg
        obtain ⟨g0, _, rfl⟩ := hg
        by_cases hsrc : g0.speakerId = some src
        · rw [if_pos hsrc]
          intro hc
          exact h1 (Option.some.inj hc).symm
        · rw [if_neg hsrc]
          exact hsrc
      · intro e he
        simp only [List.mem_map] at he
        obtain ⟨e0, _, rfl⟩ := he
        by_cases hsrc : e0.speakerId = src
        · rw [if_pos hsrc]
          exact fun hc => h1 hc.symm
        · rw [if_neg hsrc]
          exact hsrc
      · intro s hs
        have := (List.mem_filter.mp hs).2
        exact of_decide_eq_true this
      · rw [List.map_map]
        apply List.map_congr_left
        intro g _
        show Segment.id (if g.speakerId = some src then _ else g) = g.id
        by_cases hsrc : g.speakerId = some src
        · rw [if_pos hsrc]
        · rw [if_neg hsrc]
      · rw [List.map_map]
        apply List.map_congr_left
        intro e _
        show Embedding.id (if e.speakerId = src then _ else e) = e.id
        by_cases hsrc : e.speakerId = src
        · rw [if_pos hsrc]
        · rw [if_neg hsrc]
      · intro g hg hsrc
        simp only [List.mem_map]
        exact ⟨g, hg, by rw [if_pos hsrc]⟩
      · intro g hg hsrc
        simp only [List.mem_map]
        exact ⟨g, hg, by rw [if_neg hsrc]⟩
      · intro e he hsrc
        simp only [List.mem_map]
        exact ⟨e, he, by rw [if_pos hsrc]⟩
      · intro e he hsrc
        simp only [List.mem_map]
        exact ⟨e, he, by rw [if_neg hsrc]⟩
      · intro s hs hne
        exact List.mem_filter.mpr ⟨hs, decide_eq_true hne⟩
  · intro h
    unfold applyMerge
    rw [h]
    rfl

/-- Witness for C2: merging speaker 1 into speaker 2 in the sample
registry deletes speaker 1 and reassigns its segment. -/
theorem merge_reassigns_all_witness :
    (∀ s ∈ sampleMerged.speakers, s.id ≠ 1) ∧
    ({ id := 1, start := 0, stop := 5, text := ("hi"), speakerId := some 2 } : Segment) ∈
      sampleMerged.segments := by
  have h := (merge_reassigns_all sampleRegistry 1 2).1 sampleMerged (by decide)
  refine ⟨h.2.2.1, ?_⟩
  have := h.2.2.2.2.2.1 { id := 1, start := 0, stop := 5, text := ("hi"), speakerId := some 1 }
    (by decide) rfl
  exact this

/-- C3: merging twice is idempotent — after a successful merge the source
Speaker is gone, so the identical second request fails cleanly and leaves
the registry (in particular the target's Segments and Embeddings)
unchanged. -/
theorem merge_idempotent (r : Registry) (src tgt : Nat) :
    applyMerge (applyMerge r src tgt) src tgt = applyMerge r src tgt ∧
    (∀ r2, mergeSpeakers r src tgt = some r2 → mergeSpeakers r2 src tgt = none) ∧
    segmentsOf (applyMerge (applyMerge r src tgt) src tgt) tgt =
      segmentsOf (applyMerge r src tgt) tgt ∧
    embeddingsOf (applyMerge (applyMerge r src tgt) src tgt) tgt =
      embeddingsOf (applyMerge r src tgt) tgt := by
  have hsecond : ∀ r2, mergeSpeakers r src tgt = some r2 →
      mergeSpeakers r2 src tgt = none := by
    intro r2 h
    by_cases h1 : src = tgt
    · rw [mergeSpeakers, if_pos h1] at h
      exact Option.noConfusion h
    by_cases h2 : (speakerExists r src && speakerExists r tgt) = true
    swap
    · rw [mergeSpeakers, if_neg h1, if_neg h2] at h
      exact Option.noConfusion h
    · rw [mergeSpeakers, if_neg h1, if_pos h2] at h
      injection h with h
      have hex : speakerExists r2 src = false := by
        subst h
        apply Bool.eq_false_iff.mpr
        intro hc
        rw [speakerExists, List.any_eq_true] at hc
        obtain ⟨s, hs, hsid⟩ := hc
        have h3 := (List.mem_filter.mp hs).2
        exact of_decide_eq_true h3 (of_decide_eq_true hsid)
      rw [mergeSpeakers, if_neg h1, hex]
      rfl
  have hidem : applyMerge (applyMerge r src tgt) src tgt = applyMerge r src tgt := by
    cases hm : mergeSpeakers r src tgt with
    | none =>
      have ha : applyMerge r src tgt = r := by
        unfold applyMerge
        rw [hm]
        rfl
      rw [ha]
      exact ha
    | some r2 =>
      have ha : applyMerge r src tgt = r2 := by
        unfold applyMerge
        rw [hm]
        rfl
      have hb : applyMerge r2 src tgt = r2 := by
        unfold applyMerge
        rw [hsecond r2 hm]
        rfl
      rw [ha]
      exact hb
  exact ⟨hidem, hsecond, by rw [hidem], by rw [hidem]⟩

/-- Witness for C3: after merging speaker 1 into speaker 2 in the sample
registry, repeating the same merge fails cleanly. -/
theorem merge_idempotent_witness :
    mergeSpeakers sampleMerged 1 2 = none := by
  have h := merge_idempotent sampleRegistry 1 2
  exact h.2.1 sampleMerged (by decide)

lemma pickBest_eq_none {l : List (Speaker × ℚ)} : pickBest l = none ↔ l = [] := by
  cases l with
  | nil => simp [pickBest]
  | cons c cs => simp [pickBest]

lemma pickBest_mem {l : List (Speaker × ℚ)} :
    ∀ {c : Speaker × ℚ}, pickBest l = some c → c ∈ l := by
  induction l with
  | nil => intro c h; exact Option.noConfusion h
  | cons a as ih =>
    intro c h
    rw [pickBest] at h
    injection h with h
    cases hp : pickBest as with
    | none =>
      rw [hp] at h
      simp only [pickBestPair] at h
      subst h
      exact List.mem_cons_self _ _
    | some b =>
      rw [hp] at h
      simp only [pickBestPair] at h
      have hb : b ∈ as := ih hp
      split_ifs at h <;> subst h
      · exact List.mem_cons_self _ _
      · exact List.mem_cons_of_mem _ hb
      · exact List.mem_cons_self _ _
      · exact List.mem_cons_of_mem _ hb

lemma pickBest_max {l : List (Speaker × ℚ)} :
    ∀ {c : Speaker × ℚ}, pickBest l = some c → ∀ x ∈ l, x.2 ≤ c.2 := by
  induction l with
  | nil => intro c h; exact Option.noConfusion h
  | cons a as ih =>
    intro c h x hx
    rw [pickBest] at h
    injection h with h
    cases hp : pickBest as with
    | none =>
      have has : as = [] := pickBest_eq_none.mp hp
      rw [hp] at h
      simp only [pickBestPair] at h
      subst h
      rcases List.mem_cons.mp hx with rfl | hx2
      · exact le_refl _
      · rw [has] at hx2
        exact absurd hx2 (List.not_mem_nil x)
    | some b =>
      rw [hp] at h
      simp only [pickBestPair] at h
      rcases List.mem_cons.mp hx with rfl | hx2
      · split_ifs at h with h1 h2 h3 <;> subst h
        · exact le_refl _
        · exact le_of_lt h2
        · exact le_refl _
        · exact le_of_not_lt h1
      · have hxb := ih hp x hx2
        split_ifs at h with h1 h2 h3 <;> subst h
        · exact hxb.trans (le_of_lt h1)
        · exact hxb
        · exact hxb.trans (le_of_not_lt h2)
        · exact hxb

lemma matchCandidates_mem {sim : List ℚ → List ℚ → ℚ} {r : Registry} {v : List ℚ}
    {c : Speaker × ℚ} (h : c ∈ matchCandidates sim r v) :
    c.1 ∈ r.speakers ∧
    ∃ e, latestEmbeddingOf r c.1.id = some e ∧ c.2 = sim v e.vector := by
  unfold matchCandidates at h
  rw [List.mem_filterMap] at h
  obtain ⟨s, hs, heq⟩ := h
  cases hl : latestEmbeddingOf r s.id with
  | none =>
    rw [hl] at heq
    exact Option.noConfusion heq
  | some e =>
    rw [hl] at heq
    injection heq with heq
    subst heq
    exact ⟨hs, e, hl, rfl⟩

/-- C1: resolving a new voice embedding against the registry — when the
best (maximum-similarity) candidate meets or exceeds the configured
threshold, the cluster is assigned to that existing Speaker, the measured
similarity is recorded as its match confidence, and the embedding is stored
under it; otherwise a new Speaker is created whose match confidence is null
(`none`, distinct from `some 0`) and the embedding is stored under the new
Speaker. -/
theorem resolve_embedding_assignment (sim : List ℚ → List ℚ → ℚ) (threshold : ℚ)
    (r : Registry) (v : List ℚ) (newEmbId newSpeakerId now : Nat) :
    (∀ s score, pickBest (matchCandidates sim r v) = some (s, score) →
      (∀ c ∈ matchCandidates sim r v, c.2 ≤ score) ∧
      s ∈ r.speakers ∧
      (threshold ≤ score →
        (resolveEmbedding sim threshold r v newEmbId newSpeakerId now).createdNew
            = false ∧
        (resolveEmbedding sim threshold r v newEmbId newSpeakerId
            now).assignedSpeakerId = s.id ∧
        (∀ t ∈ (resolveEmbedding sim threshold r v newEmbId newSpeakerId
            now).registry.speakers,
          t.id = s.id → t.match_confidence = some score ∧ t.updatedAt = now) ∧
        ({ id := newEmbId, speakerId := s.id, vector := v, createdAt := now }
            : Embedding) ∈
          (resolveEmbedding sim threshold r v newEmbId newSpeakerId
            now).registry.embeddings) ∧
      (score < threshold →
        (resolveEmbedding sim threshold r v newEmbId newSpeakerId now).createdNew
            = true ∧
        (resolveEmbedding sim threshold r v newEmbId newSpeakerId
            now).assignedSpeakerId = newSpeakerId ∧
        ({ id := newSpeakerId, name := none, is_trusted := false,
           original_label := none, match_confidence := none, updatedAt := now }
            : Speaker) ∈
          (resolveEmbedding sim threshold r v newEmbId newSpeakerId
            now).registry.speakers ∧
        ({ id := newEmbId, speakerId := newSpeakerId, vector := v, createdAt := now }
            : Embedding) ∈
          (resolveEmbedding sim threshold r v newEmbId newSpeakerId
            now).registry.embeddings ∧
        (none : Option ℚ) ≠ some 0)) ∧
    (pickBest (matchCandidates sim r v) = none →
      (resolveEmbedding sim threshold r v newEmbId newSpeakerId now).createdNew
          = true ∧
      (resolveEmbedding sim threshold r v newEmbId newSpeakerId
          now).assignedSpeakerId = newSpeakerId ∧
      ({ id := newSpeakerId, name := none, is_trusted := false,
         original_label := none, match_confidence := none, updatedAt := now }
          : Speaker) ∈
        (resolveEmbedding sim threshold r v newEmbId newSpeakerId
          now).registry.speakers ∧
      (none : Option ℚ) ≠ some 0) := by
  constructor
  · intro s score hpick
    have hres : resolveEmbedding sim threshold r v newEmbId newSpeakerId now =
        if threshold ≤ score then
          { registry :=
              { r with
                speakers := r.speakers.map fun t =>
                  if t.id = s.id then
                    { t with match_confidence := some score, updatedAt := now }
                  else t,
                embeddings := r.embeddings ++
                  [{ id := newEmbId, speakerId := s.id, vector := v, createdAt := now }] },
            assignedSpeakerId := s.id,
            createdNew := false }
        else createNewSpeaker r v newEmbId newSpeakerId now := by
      rw [resolveEmbedding, hpick]
    refine ⟨pickBest_max hpick, (matchCandidates_mem (pickBest_mem hpick)).1, ?_, ?_⟩
    · intro hθ
      rw [if_pos hθ] at hres
      refine ⟨by rw [hres], by rw [hres], ?_, ?_⟩
      · intro t ht htid
        rw [hres] at ht
        simp only [List.mem_map] at ht
        obtain ⟨t0, _, heq⟩ := ht
        by_cases h0 : t0.id = s.id
        · rw [if_pos h0] at heq
          subst heq
          exact ⟨rfl, rfl⟩
        · rw [if_neg h0] at heq
          subst heq
          exact absurd htid h0
      · rw [hres]
        exact List.mem_append_right _ (List.mem_singleton.mpr rfl)
    · intro hlt
      rw [if_neg (not_le.mpr hlt)] at hres
      rw [hres]
      refine ⟨rfl, rfl, ?_, ?_, ?_⟩
      · exact List.mem_append_right _ (List.mem_singleton.mpr rfl)
      · exact List.mem_append_right _ (List.mem_singleton.mpr rfl)
      · exact fun hc => Option.noConfusion hc
  · intro hpick
    have hres : resolveEmbedding sim threshold r v newEmbId newSpeakerId now =
        createNewSpeaker r v newEmbId newSpeakerId now := by
      rw [resolveEmbedding, hpick]
    rw [hres]
    refine ⟨rfl, rfl, ?_, ?_⟩
    · exact List.mem_append_right _ (List.mem_singleton.mpr rfl)
    · exact fun hc => Option.noConfusion hc

/-- Witness for C1: with the exact-match similarity, threshold 1 and the
sample registry, the vector `[1, 0]` scores 1 against speaker 1's latest
embedding, meets the threshold, and is assigned to speaker 1 (no new
Speaker created). -/
theorem resolve_embedding_assignment_witness :
    (resolveEmbedding indicatorSim 1 sampleRegistry [1, 0] 10 3 30).createdNew
        = false ∧
    (resolveEmbedding indicatorSim 1 sampleRegistry [1, 0] 10 3 30).assignedSpeakerId
        = 1 := by
  have h := resolve_embedding_assignment indicatorSim 1 sampleRegistry [1, 0] 10 3 30
  have hpick : pickBest (matchCandidates indicatorSim sampleRegistry [1, 0])
      = some (spkA, 1) := by decide
  have h2 := ((h.1 spkA 1 hpick).2.2).1 (by decide)
  exact ⟨h2.1, h2.2.1⟩

/-- Counterexample for C4: immediately after a successful upload the
recording interface inserts the new job into its recent-jobs list with
hard-coded status `RUNNING` (and progress 0), so this freshly enqueued job
is first observed as `RUNNING`, not `QUEUED` — refuting the claim's
"a job is never first observed as RUNNING without having been enqueued as
QUEUED" for what the UI observes. -/
theorem job_first_observed_running :
    ((insertRecentJob [] (optimisticUploadJob ("job-1") ("2025-08-18T00:00:00Z"))).headD
        { id := (""), status := (""), progress := 0, created_at := ("") }).status
      = ("RUNNING") ∧
    (("RUNNING") : String) ≠ ("QUEUED") := by
  exact ⟨rfl, by decide⟩

/-- C4 (amended): every Job status is one of QUEUED, RUNNING, SUCCEEDED,
FAILED, CANCELLED and the spec's transition relation is one-directional —
RUNNING only from QUEUED, SUCCEEDED/FAILED only from RUNNING, CANCELLED
only from QUEUED or RUNNING, and no terminal state has any outgoing
transition (in particular none re-enters RUNNING); however, the recording
interface optimistically displays a just-enqueued job as RUNNING, so a job
can be first observed as RUNNING without QUEUED ever being observed. -/
theorem job_state_machine_amended :
    (∀ s t : JobStatus, jobTransition s t = true → isTerminalStatus s = false) ∧
    (∀ s : JobStatus, jobTransition s JobStatus.RUNNING = true →
        s = JobStatus.QUEUED) ∧
    (∀ s : JobStatus, jobTransition s JobStatus.SUCCEEDED = true →
        s = JobStatus.RUNNING) ∧
    (∀ s : JobStatus, jobTransition s JobStatus.FAILED = true →
        s = JobStatus.RUNNING) ∧
    (∀ s : JobStatus, jobTransition s JobStatus.CANCELLED = true →
        s = JobStatus.QUEUED ∨ s = JobStatus.RUNNING) ∧
    (∀ s t : JobStatus, jobTransition s t = true → jobTransition t s = false) ∧
    (optimisticUploadJob ("j") ("t")).status = ("RUNNING") := by
  refine ⟨?_, ?_, ?_, ?_, ?_, ?_, rfl⟩ <;> decide

/-- Witness for C4 (amended): the QUEUED → RUNNING transition exists and
QUEUED is not terminal. -/
theorem job_state_machine_amended_witness :
    isTerminalStatus JobStatus.QUEUED = false ∧
    jobTransition JobStatus.RUNNING JobStatus.QUEUED = false := by
  have h := job_state_machine_amended
  exact ⟨h.1 JobStatus.QUEUED JobStatus.RUNNING rfl,
    h.2.2.2.2.2.1 JobStatus.QUEUED JobStatus.RUNNING rfl⟩

lemma runAsrChain_error_iff (adapters : List AsrAdapter) (audio : String) :
    (runAsrChain adapters audio).2 =
        Except.error ("ASR failed: all transcription adapters exhausted") ↔
      ∀ a ∈ adapters, adapterOutput a audio = none := by
  induction adapters with
  | nil => simp [runAsrChain]
  | cons a rest ih =>
    cases ho : adapterOutput a audio with
    | some t =>
      rw [runAsrChain, ho]
      simp only [runAsrChainStep]
      simp [List.forall_mem_cons, ho]
    | none =>
      rw [runAsrChain, ho]
      simp only [runAsrChainStep]
      simp [List.forall_mem_cons, ho, ih]

lemma runAsrChain_allfail_tried (adapters : List AsrAdapter) (audio : String)
    (h : ∀ a ∈ adapters, adapterOutput a audio = none) :
    (runAsrChain adapters audio).1 = adapters.map AsrAdapter.name := by
  induction adapters with
  | nil => rfl
  | cons a rest ih =>
    have ha := h a (List.mem_cons_self _ _)
    rw [runAsrChain, ha]
    simp only [runAsrChainStep]
    show a.name :: (runAsrChain rest audio).1 = _
    rw [List.map_cons, ih (fun b hb => h b (List.mem_cons_of_mem _ hb))]

lemma runAsrChain_error_msg (adapters : List AsrAdapter) (audio : String) :
    ∀ {e : String}, (runAsrChain adapters audio).2 = Except.error e →
      e = ("ASR failed: all transcription adapters exhausted") := by
  induction adapters with
  | nil =>
    intro e h
    rw [runAsrChain] at h
    injection h with h
    exact h.symm
  | cons a rest ih =>
    intro e h
    cases ho : adapterOutput a audio with
    | some t =>
      rw [runAsrChain, ho] at h
      simp only [runAsrChainStep] at h
      exact Except.noConfusion h
    | none =>
      rw [runAsrChain, ho] at h
      simp only [runAsrChainStep] at h
      exact ih h

lemma runAsrChain_ok (adapters : List AsrAdapter) (audio : String) :
    ∀ {nm t : String}, (runAsrChain adapters audio).2 = Except.ok (nm, t) →
    ∃ pre a post, adapters = pre ++ a :: post ∧
      (∀ b ∈ pre, adapterOutput b audio = none) ∧
      adapterOutput a audio = some t ∧ a.name = nm ∧
      (runAsrChain adapters audio).1 = pre.map AsrAdapter.name ++ [a.name] := by
  induction adapters with
  | nil =>
    intro nm t h
    exact Except.noConfusion h
  | cons a rest ih =>
    intro nm t h
    cases ho : adapterOutput a audio with
    | some t2 =>
      rw [runAsrChain, ho] at h
      simp only [runAsrChainStep] at h
      injection h with h
      injection h with h1 h2
      refine ⟨[], a, rest, rfl, fun b hb => absurd hb (List.not_mem_nil b), ?_, h1, ?_⟩
      · rw [ho, h2]
      · rw [runAsrChain, ho]
        simp only [runAsrChainStep]
        rfl
    | none =>
      rw [runAsrChain, ho] at h
      simp only [runAsrChainStep] at h
      obtain ⟨pre, c, post, hsplit, hpre, hc, hnm, htried⟩ := ih h
      refine ⟨a :: pre, c, post, by rw [hsplit, List.cons_append], ?_, hc, hnm, ?_⟩
      · intro b hb
        rcases List.mem_cons.mp hb with rfl | hb2
        · exact ho
        · exact hpre b hb2
      · rw [runAsrChain, ho]
        simp only [runAsrChainStep]
        show a.name :: (runAsrChain rest audio).1 =
          List.map AsrAdapter.name (a :: pre) ++ [c.name]
        rw [htried, List.map_cons, List.cons_append]

/-- C5: the ASR Fallback Chain tries adapters strictly in the configured
order; the first adapter that succeeds wins — every earlier adapter failed,
the tried list is exactly the prefix up to and including the winner (each
tried once, none retried) — and the job transitions to FAILED with an
ASR-identifying error exactly when every adapter in the chain has been
exhausted. -/
theorem asr_chain_order (adapters : List AsrAdapter) (audio : String) :
    (∀ nm t, (runAsrChain adapters audio).2 = Except.ok (nm, t) →
      ∃ pre a post, adapters = pre ++ a :: post ∧
        (∀ b ∈ pre, adapterOutput b audio = none) ∧
        adapterOutput a audio = some t ∧ a.name = nm ∧
        (runAsrChain adapters audio).1 = pre.map AsrAdapter.name ++ [a.name]) ∧
    ((∀ a ∈ adapters, adapterOutput a audio = none) →
      (runAsrChain adapters audio).1 = adapters.map AsrAdapter.name ∧
      (runAsrChain adapters audio).2 =
        Except.error ("ASR failed: all transcription adapters exhausted")) ∧
    (asrStageResult adapters audio =
        (JobStatus.FAILED, some ("ASR failed: all transcription adapters exhausted")) ↔
      ∀ a ∈ adapters, adapterOutput a audio = none) := by
  refine ⟨fun nm t h => runAsrChain_ok adapters audio h, ?_, ?_⟩
  · intro h
    exact ⟨runAsrChain_allfail_tried adapters audio h,
      (runAsrChain_error_iff adapters audio).mpr h⟩
  · unfold asrStageResult
    cases hr : (runAsrChain adapters audio).2 with
    | ok p =>
      constructor
      · intro hc
        have hfst : JobStatus.RUNNING = JobStatus.FAILED := congrArg Prod.fst hc
        exact JobStatus.noConfusion hfst
      · intro hall
        have h2 := (runAsrChain_error_iff adapters audio).mpr hall
        rw [hr] at h2
        exact Except.noConfusion h2
    | error e =>
      have he : e = ("ASR failed: all transcription adapters exhausted") :=
        runAsrChain_error_msg adapters audio hr
      subst he
      constructor
      · intro _
        exact (runAsrChain_error_iff adapters audio).mp hr
      · intro _
        rfl

/-- Witness for C5: a chain consisting of one always-failing adapter is
exhausted — the tried list is exactly that adapter once and the stage
reports the ASR chain-exhausted error. -/
theorem asr_chain_order_witness :
    (runAsrChain [whisperFails] ("hello")).1 = [("whisper-cli")] ∧
    (runAsrChain [whisperFails] ("hello")).2 =
      Except.error ("ASR failed: all transcription adapters exhausted") := by
  have h := asr_chain_order [whisperFails] ("hello")
  have hall : ∀ a ∈ [whisperFails], adapterOutput a ("hello") = none := by
    intro a ha
    rw [List.mem_singleton] at ha
    subst ha
    rfl
  exact h.2.1 hall

lemma updateJob_map_id (jobs : List PipelineJob) (i : Nat)
    (f : PipelineJob → PipelineJob) (hf : ∀ j, (f j).id = j.id) :
    (updateJob jobs i f).map PipelineJob.id = jobs.map PipelineJob.id := by
  unfold updateJob
  rw [List.map_map]
  apply List.map_congr_left
  intro j _
  show PipelineJob.id (if j.id = i then f j else j) = j.id
  by_cases h : j.id = i
  · rw [if_pos h, hf]
  · rw [if_neg h]

lemma eq_of_id_eq {l : List PipelineJob} (hnd : (l.map PipelineJob.id).Nodup) :
    ∀ {a b : PipelineJob}, a ∈ l → b ∈ l → a.id = b.id → a = b := by
  induction l with
  | nil => intro a b ha _ _; exact absurd ha (List.not_mem_nil a)
  | cons x xs ih =>
    rw [List.map_cons, List.nodup_cons] at hnd
    intro a b ha hb hid
    rcases List.mem_cons.mp ha with rfl | ha2
    · rcases List.mem_cons.mp hb with rfl | hb2
      · rfl
      · exact absurd (hid ▸ List.mem_map_of_mem PipelineJob.id hb2) hnd.1
    · rcases List.mem_cons.mp hb with rfl | hb2
      · exact absurd (hid ▸ List.mem_map_of_mem PipelineJob.id ha2) hnd.1
      · exact ih hnd.2 ha2 hb2 hid

lemma mem_updateJob {jobs : List PipelineJob} {i : Nat}
    {f : PipelineJob → PipelineJob} {k : PipelineJob}
    (hk : k ∈ updateJob jobs i f) :
    ∃ orig, orig ∈ jobs ∧
      ((orig.id = i ∧ k = f orig) ∨ (orig.id ≠ i ∧ k = orig)) := by
  unfold updateJob at hk
  rw [List.mem_map] at hk
  obtain ⟨orig, ho, heq⟩ := hk
  by_cases h : orig.id = i
  · exact ⟨orig, ho, Or.inl ⟨h, by rw [← heq, if_pos h]⟩⟩
  · exact ⟨orig, ho, Or.inr ⟨h, by rw [← heq, if_neg h]⟩⟩

lemma orchStep_inv {st st2 : OrchestratorState} (hinv : OrchInv st)
    (h : OrchStep st st2) : OrchInv st2 := by
  obtain ⟨hnd, hlock⟩ := hinv
  cases h with
  | advanceLight j hj hfail hcur hnext hle =>
    refine ⟨?_, ?_⟩
    · show (List.map PipelineJob.id
          (updateJob st.jobs j.id fun x => { x with stage := x.stage + 1 })).Nodup
      rw [updateJob_map_id _ _ (fun x => { x with stage := x.stage + 1 })
        (fun x => rfl)]
      exact hnd
    · intro k hk hneed hkfail
      obtain ⟨orig, ho, hcase⟩ := mem_updateJob hk
      rcases hcase with ⟨hoid, rfl⟩ | ⟨hoid, rfl⟩
      · have horig : orig = j := eq_of_id_eq hnd ho hj hoid
        subst horig
        rw [show ({ orig with stage := orig.stage + 1 } : PipelineJob).stage
            = orig.stage + 1 from rfl, hnext] at hneed
        exact Bool.noConfusion hneed
      · exact hlock k ho hneed hkfail
  | acquireLock j hj hfail hstage hnone =>
    refine ⟨?_, ?_⟩
    · show (List.map PipelineJob.id
          (updateJob st.jobs j.id fun x => { x with stage := 3 })).Nodup
      rw [updateJob_map_id _ _ (fun x => { x with stage := 3 }) (fun x => rfl)]
      exact hnd
    · intro k hk hneed hkfail
      obtain ⟨orig, ho, hcase⟩ := mem_updateJob hk
      rcases hcase with ⟨hoid, rfl⟩ | ⟨hoid, rfl⟩
      · have horig : orig = j := eq_of_id_eq hnd ho hj hoid
        subst horig
        rfl
      · have h2 := hlock k ho hneed hkfail
        rw [hnone] at h2
        exact Option.noConfusion h2
  | acquireTimeout j hj hfail hstage =>
    refine ⟨?_, ?_⟩
    · show (List.map PipelineJob.id
          (updateJob st.jobs j.id fun x => { x with failed := true })).Nodup
      rw [updateJob_map_id _ _ (fun x => { x with failed := true }) (fun x => rfl)]
      exact hnd
    · intro k hk hneed hkfail
      obtain ⟨orig, ho, hcase⟩ := mem_updateJob hk
      rcases hcase with ⟨hoid, rfl⟩ | ⟨hoid, rfl⟩
      · exact Bool.noConfusion hkfail
      · exact hlock k ho hneed hkfail
  | advanceLocked j hj hfail hhold hge hlt =>
    refine ⟨?_, ?_⟩
    · show (List.map PipelineJob.id
          (updateJob st.jobs j.id fun x => { x with stage := x.stage + 1 })).Nodup
      rw [updateJob_map_id _ _ (fun x => { x with stage := x.stage + 1 })
        (fun x => rfl)]
      exact hnd
    · intro k hk hneed hkfail
      obtain ⟨orig, ho, hcase⟩ := mem_updateJob hk
      rcases hcase with ⟨hoid, rfl⟩ | ⟨hoid, rfl⟩
      · have horig : orig = j := eq_of_id_eq hnd ho hj hoid
        subst horig
        exact hhold
      · exact hlock k ho hneed hkfail
  | releaseLock j hj hfail hhold hstage =>
    refine ⟨?_, ?_⟩
    · show (List.map PipelineJob.id
          (updateJob st.jobs j.id fun x => { x with stage := 7 })).Nodup
      rw [updateJob_map_id _ _ (fun x => { x with stage := 7 }) (fun x => rfl)]
      exact hnd
    · intro k hk hneed hkfail
      obtain ⟨orig, ho, hcase⟩ := mem_updateJob hk
      rcases hcase with ⟨hoid, rfl⟩ | ⟨hoid, rfl⟩
      · rw [show ({ orig with stage := 7 } : PipelineJob).stage = 7 from rfl]
          at hneed
        exact Bool.noConfusion hneed
      · have h2 := hlock k ho hneed hkfail
        rw [hhold] at h2
        exact absurd (Option.some.inj h2) (fun he => hoid he.symm)
  | failLocked j hj hhold hneedj =>
    refine ⟨?_, ?_⟩
    · show (List.map PipelineJob.id
          (updateJob st.jobs j.id fun x => { x with failed := true })).Nodup
      rw [updateJob_map_id _ _ (fun x => { x with failed := true }) (fun x => rfl)]
      exact hnd
    · intro k hk hneed hkfail
      obtain ⟨orig, ho, hcase⟩ := mem_updateJob hk
      rcases hcase with ⟨hoid, rfl⟩ | ⟨hoid, rfl⟩
      · exact Bool.noConfusion hkfail
      · have h2 := hlock k ho hneed hkfail
        rw [hhold] at h2
        exact absurd (Option.some.inj h2) (fun he => hoid he.symm)

lemma orchReach_inv {init st : OrchestratorState} (hinit : OrchInv init)
    (hreach : Relation.ReflTransGen OrchStep init st) : OrchInv st := by
  induction hreach with
  | refl => exact hinit
  | tail h1 h2 ih => exact orchStep_inv ih h2

/-- C6: in every state reachable from a state satisfying the
lock-discipline invariant, at most one unfailed job occupies the
accelerator-bound stages 3–6 (no two distinct jobs hold the Resource Lock
simultaneously); and for a job about to need the lock, the
acquisition-timeout transition is always available and merely marks that
job as failed — the job record survives, so a timeout is a stage failure,
not a crash. -/
theorem resource_lock_mutex (init st : OrchestratorState)
    (hinit : OrchInv init) (hreach : Relation.ReflTransGen OrchStep init st) :
    (∀ j1 ∈ st.jobs, ∀ j2 ∈ st.jobs,
      needsResourceLock j1.stage = true → j1.failed = false →
      needsResourceLock j2.stage = true → j2.failed = false → j1 = j2) ∧
    (∀ j ∈ st.jobs, j.stage = 2 → j.failed = false →
      OrchStep st
        { st with jobs := updateJob st.jobs j.id fun x => { x with failed := true } } ∧
      (updateJob st.jobs j.id fun x => { x with failed := true }).length
        = st.jobs.length) := by
  obtain ⟨hnd, hlock⟩ := orchReach_inv hinit hreach
  constructor
  · intro j1 h1 j2 h2 hn1 hf1 hn2 hf2
    have e1 := hlock j1 h1 hn1 hf1
    have e2 := hlock j2 h2 hn2 hf2
    rw [e1] at e2
    exact eq_of_id_eq hnd h1 h2 (Option.some.inj e2)
  · intro j hj hstage hfail
    refine ⟨OrchStep.acquireTimeout st j hj hfail hstage, ?_⟩
    unfold updateJob
    rw [List.length_map]

/-- Witness for C6: from a concrete two-job initial state with the lock
free, the timeout transition for job 1 (at stage 2) is available and
preserves the job count. -/
theorem resource_lock_mutex_witness :
    OrchStep initOrch
      { initOrch with
        jobs := updateJob initOrch.jobs 1 fun x => { x with failed := true } } ∧
    (updateJob initOrch.jobs 1 fun x => { x with failed := true }).length
      = initOrch.jobs.length := by
  have hinv : OrchInv initOrch := by
    unfold OrchInv
    decide
  have h := resource_lock_mutex initOrch initOrch hinv Relation.ReflTransGen.refl
  exact h.2 { id := 1, stage := 2, failed := false } (List.mem_cons_self _ _) rfl rfl

end VoiceStack
